import Mathlib

/-!
Shallow embedding of the AI-ContentForge content-generation pipeline.

The definitions below are translated from the repository's JavaScript/TypeScript
sources:
  * `src/unnamed/part_003`  — the mongoose `Content` schema (record shape, the
    `pre('save')` word-count hook, schema defaults and the `required` content field);
  * `src/server/services/aiService.js` — `AIService.generateContent`,
    `generateContentBackground`, `getGenerationStatus`, `optimizeForSEO`,
    `generateImages`;
  * `src/server/routes/content.js` — the `PUT /:id` update endpoint;
  * `src/server/services/competitiveResearchService.js` — `performWebResearch`,
    `scrapeTopResults`, `generateMockCompetitors`, `parseOutlineFromText`,
    `generateCompetitiveOutline` (parsing pipeline), `generateSectionContent`;
  * `src/src/pages/CompetitiveBlogGenerator.tsx` — `handleReorderSection`,
    `handleGenerateSection`, `handleGenerateAllContent`.

External effects (LLM provider calls, the SerpAPI search, page fetches,
database write failures, `Math.random`) are modelled as explicit oracle
arguments; the mongoose record store is an explicit list of records passed and
returned by each operation.  Machine arithmetic in the sources is plain
JavaScript number arithmetic on small non-negative integers, modelled as `Nat`.
-/

namespace ContentForge

/-- The characters matched by JavaScript's `\s` (ASCII range), used by the
sources in `split(/\s+/)`, `trim()` and `replace(/\s+/g, '-')`. -/
def isJsSpace (c : Char) : Bool :=
  c = ' ' || c = '\t' || c = '\n' || c = '\r' || c = '\x0b' || c = '\x0c'

/-- JavaScript `String.prototype.trim` on a character list. -/
def jsTrimL (l : List Char) : List Char :=
  ((l.dropWhile isJsSpace).reverse.dropWhile isJsSpace).reverse

/-- JavaScript `s.trim()` for strings. -/
def jsTrim (s : String) : String :=
  String.mk (jsTrimL s.toList)

/-- `content.split(/\s+/).filter(word => word.length > 0).length` from the
`Content` schema's `pre('save')` hook (part_003, lines 103-110).  Splitting on
every whitespace character and discarding empty tokens counts exactly the
maximal non-whitespace runs, which is what splitting on `/\s+/` and filtering
empties computes. -/
def countWords (s : String) : Nat :=
  ((s.toList.splitOnP isJsSpace).filter (· ≠ [])).length

/-- `Math.ceil(wordCount / 200)` on natural numbers. -/
def readingTimeOf (wc : Nat) : Nat :=
  (wc + 199) / 200

/-- `metadata` subdocument of the `Content` schema with its schema defaults. -/
structure RecMetadata where
  wordCount : Nat := 0
  readingTime : Nat := 0
  language : String := "english"
  tone : String := "professional"
  targetLength : String := "3000"
deriving DecidableEq, Repr

/-- `seo` subdocument of the `Content` schema. -/
structure RecSeo where
  keywords : List String := []
  metaDescription : Option String := none
  score : Nat := 0
  suggestions : List String := []
deriving DecidableEq, Repr

/-- `generation` subdocument.  The failure path of the background task writes
`'generation.error'`; `getGenerationStatus` reads it back, so it is carried
here as an optional field. -/
structure RecGeneration where
  model : Option String := none
  provider : Option String := none
  generationTime : Option Nat := none
  error : Option String := none
deriving DecidableEq, Repr

/-- One entry of the `uploadedFiles` array. -/
structure RecUploadedFile where
  filename : String := ""
  extractedText : String := ""
deriving DecidableEq, Repr

/-- One entry of the `images` array (the `section` key of the source is named
`sectionLabel` here because `section` is a Lean keyword). -/
structure RecImage where
  url : String
  alt : String
  caption : String
  sectionLabel : String
deriving DecidableEq, Repr

/-- A persisted `Content` document.  `content` is `Option` because the
orchestrator creates the record before any content exists, even though the
schema declares the path `required`.  `contentModified` models mongoose's
dirty tracking of the `content` path, consumed by the `pre('save')` hook's
`this.isModified('content')` check. -/
structure ContentRecord where
  id : Nat
  user : Nat
  title : String
  content : Option String := none
  outline : Option String := none
  status : String := "draft"
  metadata : RecMetadata := {}
  seo : RecSeo := {}
  generation : RecGeneration := {}
  uploadedFiles : List RecUploadedFile := []
  images : List RecImage := []
  views : Nat := 0
  contentModified : Bool := false
deriving DecidableEq, Repr

instance : Inhabited ContentRecord :=
  ⟨{ id := 0, user := 0, title := "" }⟩

/-- The record store: the `contents` collection. -/
abbrev Store := List ContentRecord

/-- `Content.findOne({_id: cid, user: uid})`. -/
def findOneOwned (st : Store) (cid uid : Nat) : Option ContentRecord :=
  st.find? (fun r => r.id = cid && r.user = uid)

/-- The `pre('save')` hook of the `Content` schema (part_003, lines 103-110):
if the `content` path is modified, recompute `metadata.wordCount` as the
number of non-empty whitespace-delimited tokens and `metadata.readingTime`
as `Math.ceil(wordCount / 200)`. -/
def applySaveHook (r : ContentRecord) : ContentRecord :=
  if r.contentModified then
    match r.content with
    | some c =>
        { r with metadata :=
            { r.metadata with
                wordCount := countWords c
                readingTime := readingTimeOf (countWords c) } }
    | none => r
  else r

/-- `document.save()`: mongoose first validates (the schema marks `content`
`required`, so a document without it rejects with a ValidationError), then
runs the `pre('save')` hook and persists, clearing the modified flags. -/
def saveDoc (r : ContentRecord) : Except String ContentRecord :=
  match r.content with
  | none => .error "Content validation failed: content: Path `content` is required."
  | some _ => .ok { applySaveHook r with contentModified := false }

/-- The body of `PUT /content/:id` that `$set` applies.  The route passes
`req.body` through unchecked, so besides `title`/`content`/`status` a caller
can also ship a whole `metadata` object. -/
structure UpdateBody where
  title : Option String := none
  content : Option String := none
  status : Option String := none
  metadata : Option RecMetadata := none
deriving Repr

/-- `$set: req.body` applied to one document. -/
def applyUpdateBody (b : UpdateBody) (r : ContentRecord) : ContentRecord :=
  let r := match b.title with | some t => { r with title := t } | none => r
  let r := match b.content with | some c => { r with content := some c } | none => r
  let r := match b.status with | some s => { r with status := s } | none => r
  match b.metadata with | some m => { r with metadata := m } | none => r

/-- `PUT /content/:id` (content.js, lines 110-155):
`Content.findOneAndUpdate({_id, user}, {$set: req.body}, {new: true})`.
`findOneAndUpdate` is a query-level update: it does not run the schema's
`pre('save')` document middleware.  Returns the updated store and the
response document (or the 404 error). -/
def putContentUpdate (cid uid : Nat) (b : UpdateBody) (st : Store) :
    Store × Except String ContentRecord :=
  match findOneOwned st cid uid with
  | none => (st, .error "Content not found")
  | some r =>
      (st.map (fun x => if x.id = cid && x.user = uid then applyUpdateBody b x else x),
       .ok (applyUpdateBody b r))

/-- The snapshot `AIService.getGenerationStatus` returns. -/
structure StatusSnapshot where
  id : Nat
  status : String
  progress : Nat
  title : String
  wordCount : Nat
  generationTime : Option Nat
  error : Option String
deriving DecidableEq, Repr

/-- `AIService.getGenerationStatus(contentId, userId)` (aiService.js, lines
310-326): finds the record by id *and* owner, throws `'Content not found'`
otherwise. -/
def getGenerationStatus (cid uid : Nat) (st : Store) : Except String StatusSnapshot :=
  match findOneOwned st cid uid with
  | none => .error "Content not found"
  | some c =>
      .ok { id := c.id
            status := c.status
            progress := if c.status = "generating" then 50 else 100
            title := c.title
            wordCount := c.metadata.wordCount
            generationTime := c.generation.generationTime
            error := c.generation.error }

/-! ### The AIService orchestrator (aiService.js) -/

/-- The `aiSettings` subdocument of a user account; every field may be absent
(the pipeline never validates them before use). -/
structure AiSettings where
  apiKey : Option String := none
  provider : Option String := none
  model : Option String := none
  creativity : Option String := none
deriving DecidableEq, Repr

/-- The requesting account as `generateContent` sees it.  `aiSettings` itself
may be `undefined` on an account that never configured a provider. -/
structure UserAccount where
  id : Nat
  aiSettings : Option AiSettings := none
deriving DecidableEq, Repr

/-- The request body of `POST generate-content` (after express-validator,
which only checks the optional fields' types and that `topic` is present). -/
structure GenParams where
  topic : String
  outline : Option String := none
  keywords : Option String := none
  tone : Option String := none
  language : Option String := none
  targetLength : Option String := none
  uploadedFiles : Option (List RecUploadedFile) := none
  includeImages : Bool := false
  seoOptimize : Bool := false
deriving Repr

/-- `keywords?.split(',').map(k => k.trim()) || []` from `generateContent`. -/
def splitKeywords (keywords : Option String) : List String :=
  match keywords with
  | none => []
  | some s => (s.splitOn ",").map jsTrim

/-- The configuration-error message the repository itself uses for a missing
API key (`CompetitiveResearchService.validateUserAIConfig`).  `AIService.generateContent` never raises it. -/
def missingKeyMessage : String :=
  "Please configure your AI API key in Settings before generating content."

/-- `AIService.generateContent(params, user)` (aiService.js, lines 165-204),
up to and including the synchronous part of the request: build the record
(status `'generating'`, no `content` path) and `await content.save()`.
Reading `user.aiSettings.model` throws a TypeError synchronously when
`aiSettings` is absent; otherwise the save itself rejects, because the schema
requires `content`, which the new record does not set.  Returns the store as
left behind plus either the new record's id or the error; the background task
is only scheduled on success. -/
def generateContent (params : GenParams) (user : UserAccount) (freshId : Nat)
    (st : Store) : Store × Except String Nat :=
  match user.aiSettings with
  | none =>
      (st, .error "TypeError: Cannot read properties of undefined (reading 'model')")
  | some s =>
      let record : ContentRecord :=
        { id := freshId
          user := user.id
          title := params.topic
          content := none
          status := "generating"
          metadata :=
            { language := (params.language).getD "english"
              tone := (params.tone).getD "professional"
              targetLength := (params.targetLength).getD "3000" }
          seo := { keywords := splitKeywords params.keywords }
          generation := { model := s.model, provider := s.provider }
          uploadedFiles := (params.uploadedFiles).getD [] }
      match saveDoc record with
      | .error e => (st, .error e)
      | .ok saved => (st ++ [saved], .ok freshId)

/-- The three providers of the `switch` statements. -/
inductive Provider where
  | openai
  | anthropic
  | google
deriving DecidableEq, Repr

/-- The token budget `generateContentBackground` passes for a given provider
(aiService.js, lines 242-268): `Math.min(parseInt(params.targetLength) * 2,
4000)` for OpenAI and Anthropic; the Google branch calls
`model.generateContent(prompt)` with no token limit at all.
`targetLength` is the already-parsed target word count. -/
def contentGenMaxTokens (p : Provider) (targetLength : Nat) : Option Nat :=
  match p with
  | .openai => some (min (targetLength * 2) 4000)
  | .anthropic => some (min (targetLength * 2) 4000)
  | .google => none

/-- The token budget `generateSectionContent` passes
(competitiveResearchService.js, lines 566-596): `Math.min(wordCount * 3,
4000)` for OpenAI and Anthropic; again nothing for Google. -/
def sectionGenMaxTokens (p : Provider) (wordCount : Nat) : Option Nat :=
  match p with
  | .openai => some (min (wordCount * 3) 4000)
  | .anthropic => some (min (wordCount * 3) 4000)
  | .google => none

/-! ### Competitor research (competitiveResearchService.js) -/

/-- One organic result of the SerpAPI response.  Every field may be missing
(the source guards each with `|| fallback`). -/
structure SearchResult where
  title : Option String := none
  link : String := ""
  snippet : Option String := none
  position : Option Nat := none
deriving DecidableEq, Repr

/-- What `scrapePage` returns for one fetched page (already cleaned:
headings filtered by length, text content capped at 5000 characters). -/
structure PageData where
  headings : List String := []
  wordCount : Nat := 0
  textContent : String := ""
deriving DecidableEq, Repr

/-- One competitor summary as `scrapeTopResults` / `generateMockCompetitors`
produce it. -/
structure Competitor where
  title : String
  url : String
  metaDescription : String
  headings : List String
  snippet : String
  ranking : Nat
  wordCount : Nat
  backlinks : Nat
  domain : String
  extractedContent : Option String := none
deriving DecidableEq, Repr

/-- JavaScript `a || b` for an optional string (`undefined` and `''` are
falsy). -/
def jsOrStr (o : Option String) (d : String) : String :=
  match o with
  | some s => if s = "" then d else s
  | none => d

/-- JavaScript `a || b` for an optional number (`undefined` and `0` are
falsy), used for `result.position || i + 1`. -/
def jsOrNat (o : Option Nat) (d : Nat) : Nat :=
  match o with
  | some n => if n = 0 then d else n
  | none => d

/-- First index at which `pat` occurs in `l`, scanning left to right. -/
def findSubstrIdx (pat : List Char) : List Char → Option Nat
  | [] => if pat = [] then some 0 else none
  | c :: t =>
      if pat.isPrefixOf (c :: t) then some 0
      else (findSubstrIdx pat t).map (· + 1)

/-- JavaScript `s.includes(sub)`. -/
def strIncludes (s sub : String) : Bool :=
  (findSubstrIdx sub.toList s.toList).isSome

/-- `extractDomain(url)` (lines 213-219): `new URL(url).hostname` with a
leading `www.` stripped, or `'unknown-domain.com'` when URL parsing throws.
Hostname extraction is modelled as the text between `://` and the next
`/`, `:`, `?` or `#`; `replace('www.', '')` removes the first occurrence. -/
def extractDomain (url : String) : String :=
  match findSubstrIdx "://".toList url.toList with
  | none => "unknown-domain.com"
  | some i =>
      let host := (url.toList.drop (i + 3)).takeWhile
        (fun c => !(c = '/' || c = ':' || c = '?' || c = '#'))
      if host = [] then "unknown-domain.com"
      else if "www.".toList.isPrefixOf host then String.mk (host.drop 4)
      else String.mk host

/-- `estimateBacklinks(url)` (lines 221-230); `rand` models the sampled
`Math.random()` scaled draw. -/
def estimateBacklinks (url : String) (rand : Nat) : Nat :=
  let domain := extractDomain url
  let authorityDomains := ["wikipedia.org", "github.com", "stackoverflow.com", "medium.com"]
  if authorityDomains.any (fun d => strIncludes domain d) then rand % 1000 + 500
  else rand % 200 + 10

/-- `estimateWordCount(text)` (lines 232-234): snippet word count times 10. -/
def estimateWordCount (text : String) : Nat :=
  countWords text * 10

/-- `extractHeadingsFromSnippet(snippet)` (lines 236-240): split into
sentences on `[.!?]+`, keep those whose trimmed length exceeds 10, take the
first three, trimmed.  Splitting on each punctuation character produces extra
empty segments compared to splitting on runs, but those are removed by the
same length filter. -/
def extractHeadingsFromSnippet (snippet : String) : List String :=
  (((snippet.toList.splitOnP (fun c => c = '.' || c = '!' || c = '?')).filter
      (fun s => 10 < (jsTrimL s).length)).take 3).map (fun s => String.mk (jsTrimL s))

/-- `topic.toLowerCase().replace(/\s+/g, '-')` used in the mock URLs. -/
def slugify (topic : String) : String :=
  String.mk (go (topic.toList.map Char.toLower))
where
  go : List Char → List Char
    | [] => []
    | c :: t =>
        if isJsSpace c then '-' :: go (t.dropWhile isJsSpace)
        else c :: go t
  termination_by l => l.length
  decreasing_by
    · exact Nat.lt_succ_of_le (List.dropWhile_sublist _).length_le
    · simp

/-- `generateMockCompetitors(topic)` (lines 243-357): the deterministic
synthetic fallback set of five competitor summaries. -/
def generateMockCompetitors (topic : String) : List Competitor :=
  [ { title := "The Complete Guide to " ++ topic ++ ": Everything You Need to Know"
      url := "https://example1.com/" ++ slugify topic ++ "-guide"
      metaDescription := "Master " ++ topic ++ " with our comprehensive guide. Learn best practices, avoid common mistakes, and get expert insights."
      headings :=
        [ "Introduction to " ++ topic
        , "Why " ++ topic ++ " Matters in 2024"
        , "Getting Started: The Basics"
        , "Step-by-Step Implementation"
        , "Advanced Techniques and Strategies"
        , "Common Mistakes to Avoid"
        , "Tools and Resources"
        , "Real-World Case Studies"
        , "Future Trends and Predictions"
        , "Conclusion and Next Steps" ]
      snippet := "Comprehensive guide covering everything about " ++ topic ++ ". Learn from experts and implement proven strategies."
      ranking := 1
      wordCount := 3500
      backlinks := 245
      domain := "example1.com" }
  , { title := topic ++ ": Best Practices and Expert Tips for Success"
      url := "https://techblog.com/" ++ slugify topic ++ "-best-practices"
      metaDescription := "Discover proven " ++ topic ++ " strategies from industry experts. Practical tips and actionable insights for immediate results."
      headings :=
        [ "Understanding " ++ topic
        , "Industry Best Practices"
        , "Expert Recommendations"
        , "Implementation Strategies"
        , "Measuring Success and ROI"
        , "Optimization Techniques"
        , "Troubleshooting Common Issues"
        , "Advanced Tips from Professionals"
        , "Tools and Software Recommendations" ]
      snippet := "Learn " ++ topic ++ " best practices from industry experts. Proven strategies and actionable tips for success."
      ranking := 2
      wordCount := 2800
      backlinks := 189
      domain := "techblog.com" }
  , { title := "How to Master " ++ topic ++ " in 2024: A Modern Approach"
      url := "https://moderntech.io/mastering-" ++ slugify topic
      metaDescription := "Stay ahead with the latest " ++ topic ++ " techniques and strategies. Modern approaches for 2024 and beyond."
      headings :=
        [ "The Current State of " ++ topic
        , "Why Traditional Approaches Fall Short"
        , "Modern Methodologies"
        , "Essential Tools and Technologies"
        , "Building Your " ++ topic ++ " Strategy"
        , "Implementation Roadmap"
        , "Measuring and Optimizing Results"
        , "Future-Proofing Your Approach"
        , "Success Stories and Case Studies" ]
      snippet := "Modern approach to " ++ topic ++ " with cutting-edge techniques and strategies for 2024."
      ranking := 3
      wordCount := 3200
      backlinks := 156
      domain := "moderntech.io" }
  , { title := topic ++ " Tutorial: From Beginner to Expert"
      url := "https://learnfast.com/" ++ slugify topic ++ "-tutorial"
      metaDescription := "Complete " ++ topic ++ " tutorial for all skill levels. Start from basics and advance to expert-level techniques."
      headings :=
        [ "Getting Started with " ++ topic
        , "Basic Concepts and Terminology"
        , "Hands-On Practice Exercises"
        , "Intermediate Techniques"
        , "Advanced Strategies"
        , "Real-World Projects"
        , "Performance Optimization"
        , "Troubleshooting Guide"
        , "Resources for Continued Learning" ]
      snippet := "Step-by-step " ++ topic ++ " tutorial from beginner to expert level. Hands-on exercises and real-world examples."
      ranking := 4
      wordCount := 4100
      backlinks := 134
      domain := "learnfast.com" }
  , { title := "Top 10 " ++ topic ++ " Strategies That Actually Work"
      url := "https://strategyhub.com/top-" ++ slugify topic ++ "-strategies"
      metaDescription := "Discover the most effective " ++ topic ++ " strategies used by successful professionals. Proven methods that deliver results."
      headings :=
        [ "Strategy #1: Foundation Building"
        , "Strategy #2: Systematic Approach"
        , "Strategy #3: Data-Driven Decisions"
        , "Strategy #4: Automation and Efficiency"
        , "Strategy #5: Continuous Improvement"
        , "Strategy #6: Risk Management"
        , "Strategy #7: Scalability Planning"
        , "Strategy #8: Performance Monitoring"
        , "Strategy #9: Innovation Integration"
        , "Strategy #10: Long-term Sustainability" ]
      snippet := "Top 10 proven " ++ topic ++ " strategies that deliver real results. Learn what works and what doesn't."
      ranking := 5
      wordCount := 2600
      backlinks := 98
      domain := "strategyhub.com" }
  ]

/-- The SerpAPI call as `getSearchResults` sees it: a network/API failure,
a 200 response without `organic_results` (the guard throws), or the list of
organic results (possibly empty — an empty array passes the guard). -/
abbrev SearchOutcome := Except String (Option (List SearchResult))

/-- `getSearchResults(query)` (lines 96-121). -/
def getSearchResults (outcome : SearchOutcome) : Except String (List SearchResult) :=
  match outcome with
  | .error e => .error ("Failed to fetch search results: " ++ e)
  | .ok none => .error "Failed to fetch search results: No organic results found in SerpAPI response"
  | .ok (some results) => .ok results

/-- One competitor entry of the per-result loop in `scrapeTopResults`
(lines 48-85): the full entry when the page scrape succeeds, the degraded
snippet-only entry when it fails. -/
def competitorOfResult (i : Nat) (r : SearchResult)
    (page : Except String PageData) (rand : Nat) : Competitor :=
  match page with
  | .ok pd =>
      { title := jsOrStr r.title ("Result " ++ toString (i + 1))
        url := r.link
        metaDescription := jsOrStr r.snippet ""
        headings := pd.headings
        snippet := jsOrStr r.snippet ""
        ranking := jsOrNat r.position (i + 1)
        wordCount := pd.wordCount
        backlinks := estimateBacklinks r.link rand
        domain := extractDomain r.link
        extractedContent := some pd.textContent }
  | .error _ =>
      { title := jsOrStr r.title ("Result " ++ toString (i + 1))
        url := r.link
        metaDescription := jsOrStr r.snippet ""
        headings := extractHeadingsFromSnippet (jsOrStr r.snippet "")
        snippet := jsOrStr r.snippet ""
        ranking := jsOrNat r.position (i + 1)
        wordCount := estimateWordCount (jsOrStr r.snippet "")
        backlinks := estimateBacklinks r.link rand
        domain := extractDomain r.link
        extractedContent := none }

/-- `scrapeTopResults(topic)` (lines 36-93): fetch the search results, keep
the top 10, and build one competitor per result; a single page failure only
degrades that entry, a search failure propagates.  `pages i` is the fetch
outcome for the i-th processed result, `rand i` the backlink draw. -/
def scrapeTopResults (outcome : SearchOutcome) (pages : Nat → Except String PageData)
    (rand : Nat → Nat) : Except String (List Competitor) :=
  match getSearchResults outcome with
  | .error e => .error e
  | .ok results =>
      .ok (((results.take 10).enum).map (fun p => competitorOfResult p.1 p.2 (pages p.1) (rand p.1)))

/-- `performWebResearch(topic)` (lines 13-33): with a configured SerpAPI key
use the live path, otherwise — or when the live path throws — fall back to
the deterministic mock set.  `process.env.SERPAPI_KEY` is falsy when unset or
empty. -/
def performWebResearch (serpApiKey : Option String) (topic : String)
    (outcome : SearchOutcome) (pages : Nat → Except String PageData)
    (rand : Nat → Nat) : List Competitor :=
  let keyConfigured := match serpApiKey with
    | none => false
    | some k => k ≠ ""
  if keyConfigured then
    match scrapeTopResults outcome pages rand with
    | .ok competitors => competitors
    | .error _ => generateMockCompetitors topic
  else generateMockCompetitors topic

/-! ### The heuristic outline parser (`parseOutlineFromText`) -/

/-- One outline section as the research service's parsers emit it. -/
structure GenSection where
  title : String
  description : String
  wordCount : Nat
  competitiveAdvantage : String
  seoValue : String
deriving DecidableEq, Repr

/-- What `parseOutlineFromText` (and a parsed JSON response, via field
defaults) returns to `generateCompetitiveOutline`. -/
structure OutlineResult where
  outline : List GenSection
  seoStrategy : String
  targetKeywords : List String
  contentGaps : List String
  uniqueValue : String
deriving DecidableEq, Repr

/-- The capture of `/^\d+\.\s*(.+)/`: one or more digits, a dot, then the
rest of the line — which must be non-empty for `(.+)` to match (with
backtracking, `\s*` gives characters back to `(.+)` as needed, so the match
succeeds exactly when something follows the dot).  The returned capture is
normalised by dropping the leading whitespace `\s*` consumes; when the rest
is all whitespace the real engine captures its last character instead, but
the two agree after the `trim()` every caller applies. -/
def matchNumbered (line : List Char) : Option (List Char) :=
  let ds := line.takeWhile (·.isDigit)
  if ds = [] then none
  else
    match line.dropWhile (·.isDigit) with
    | '.' :: rest => if rest = [] then none else some (rest.dropWhile isJsSpace)
    | _ => none

/-- The capture of `/^[-*]\s*(.+)/`. -/
def matchBulleted (line : List Char) : Option (List Char) :=
  match line with
  | c :: rest =>
      if (c = '-' || c = '*') && rest ≠ [] then some (rest.dropWhile isJsSpace)
      else none
  | [] => none

/-- The capture of `/^#{2,3}\s*(.+)/`: two or three hashes (greedily three
when a third hash is followed by anything, so that `(.+)` still has a
character). -/
def matchHeader (line : List Char) : Option (List Char) :=
  match line with
  | '#' :: '#' :: rest =>
      if rest = [] then none
      else
        match rest with
        | '#' :: rest3 =>
            if rest3 = [] then some (rest.dropWhile isJsSpace)
            else some (rest3.dropWhile isJsSpace)
        | _ => some (rest.dropWhile isJsSpace)
  | _ => none

/-- `line.match(numbered) || line.match(bulleted) || line.match(header)`. -/
def matchSectionLine (line : List Char) : Option (List Char) :=
  (matchNumbered line).orElse (fun _ => (matchBulleted line).orElse (fun _ => matchHeader line))

/-- `sectionMatch[1].trim().replace(/[*_]/g, '')`. -/
def sectionTitleOf (capture : List Char) : String :=
  String.mk ((jsTrimL capture).filter (fun c => !(c = '*' || c = '_')))

/-- A fresh section as the heuristic parser creates it (wordCount 600 and the
two fixed rationale strings). -/
def freshSection (capture : List Char) : GenSection :=
  { title := sectionTitleOf capture
    description := ""
    wordCount := 600
    competitiveAdvantage := "Comprehensive coverage with unique insights"
    seoValue := "Optimized for search rankings and user engagement" }

/-- The line loop of `parseOutlineFromText` (lines 631-656): section-header
lines open a new section (pushing the previous one), other lines that do not
contain a brace accumulate onto the current section's description.  The lines
are already filtered to have non-empty trim. -/
def parseLines : List (List Char) → Option GenSection → List GenSection → List GenSection
  | [], cur, acc =>
      match cur with
      | some s => acc ++ [s]
      | none => acc
  | line :: rest, cur, acc =>
      match matchSectionLine line with
      | some capture =>
          match cur with
          | some s => parseLines rest (some (freshSection capture)) (acc ++ [s])
          | none => parseLines rest (some (freshSection capture)) acc
      | none =>
          match cur with
          | some s =>
              if line.contains '\x7b' || line.contains '\x7d' then
                parseLines rest (some s) acc
              else
                parseLines rest
                  (some { s with description := s.description ++ String.mk (jsTrimL line) ++ " " })
                  acc
          | none => parseLines rest none acc

/-- The heuristic sections found in a response text: split into lines, keep
lines with a non-empty trim, run the loop. -/
def heuristicSections (text : String) : List GenSection :=
  parseLines ((text.toList.splitOnP (· = '\n')).filter (fun l => jsTrimL l ≠ [])) none []

/-- The fixed default outline pushed when the heuristics find nothing
(lines 659-711). -/
def defaultOutline (title : String) : List GenSection :=
  [ { title := "Introduction to " ++ title
      description := "Comprehensive introduction covering the importance and overview of " ++ title
      wordCount := 500
      competitiveAdvantage := "More engaging and comprehensive introduction than competitors"
      seoValue := "Optimized for featured snippets and user engagement" }
  , { title := "Understanding " ++ title ++ ": Core Concepts"
      description := "Deep dive into the fundamental concepts and principles of " ++ title
      wordCount := 800
      competitiveAdvantage := "Clearer explanations with practical examples"
      seoValue := "Targets informational search queries" }
  , { title := "Step-by-Step Implementation Guide"
      description := "Practical, actionable steps for implementing " ++ title ++ " successfully"
      wordCount := 1000
      competitiveAdvantage := "More detailed and actionable than competitor guides"
      seoValue := "Targets how-to search queries" }
  , { title := "Advanced Strategies and Best Practices"
      description := "Expert-level techniques and industry best practices for " ++ title
      wordCount := 800
      competitiveAdvantage := "Unique advanced insights not found in competitor content"
      seoValue := "Targets advanced user queries" }
  , { title := "Common Mistakes and How to Avoid Them"
      description := "Comprehensive guide to avoiding pitfalls and common errors in " ++ title
      wordCount := 600
      competitiveAdvantage := "More comprehensive mistake prevention guide"
      seoValue := "Targets problem-solving queries" }
  , { title := "Tools, Resources, and Recommendations"
      description := "Curated list of the best tools and resources for " ++ title
      wordCount := 500
      competitiveAdvantage := "More up-to-date and comprehensive tool recommendations"
      seoValue := "Targets tool comparison queries" }
  , { title := "Future Trends and Conclusion"
      description := "Analysis of future trends and actionable next steps for " ++ title
      wordCount := 400
      competitiveAdvantage := "Forward-looking insights and clear action items"
      seoValue := "Provides comprehensive conclusion for better user experience" } ]

/-- `parseOutlineFromText(text, title)` (lines 625-720). -/
def parseOutlineFromText (text title : String) : OutlineResult :=
  let secs := heuristicSections text
  { outline := if secs = [] then defaultOutline title else secs
    seoStrategy := "Comprehensive coverage designed to outrank competitors"
    targetKeywords := [title]
    contentGaps := ["More detailed explanations", "Better practical examples", "Up-to-date information"]
    uniqueValue := "More comprehensive and actionable than existing content" }

/-! ### JSON values and `JSON.parse`, for the response-parsing pipeline of
`generateCompetitiveOutline` (lines 467-487) -/

/-- A JavaScript value as `JSON.parse` produces it.  Numbers are kept as
their lexemes: no claim depends on float arithmetic, only on truthiness. -/
inductive Json where
  | null : Json
  | bool (b : Bool) : Json
  | num (lexeme : String) : Json
  | str (s : String) : Json
  | arr (elems : List Json) : Json
  | obj (members : List (String × Json)) : Json
deriving BEq, Repr

/-- Whitespace `JSON.parse` skips. -/
def isJsonWs (c : Char) : Bool :=
  c = ' ' || c = '\t' || c = '\n' || c = '\r'

/-- Hex digit value. -/
def hexVal (c : Char) : Option Nat :=
  if c.isDigit then some (c.toNat - 48)
  else if 'a' ≤ c && c ≤ 'f' then some (c.toNat - 87)
  else if 'A' ≤ c && c ≤ 'F' then some (c.toNat - 55)
  else none

/-- Single-character JSON string escapes. -/
def jsonEscChar (c : Char) : Option Char :=
  if c = '"' then some '"'
  else if c = '\\' then some '\\'
  else if c = '/' then some '/'
  else if c = 'b' then some '\x08'
  else if c = 'f' then some '\x0c'
  else if c = 'n' then some '\n'
  else if c = 'r' then some '\r'
  else if c = 't' then some '\t'
  else none

/-- JSON string body, entered after the opening quote; returns the decoded
characters and the remainder after the closing quote.  A `\uXXXX` escape is
decoded with `Char.ofNat` (a lone surrogate maps to `Char.ofNat`'s default;
no claim touches such strings). -/
def parseJsonStr : Nat → List Char → Option (List Char × List Char)
  | 0, _ => none
  | _, [] => none
  | fuel + 1, c :: rest =>
      if c = '"' then some ([], rest)
      else if c = '\\' then
        match rest with
        | [] => none
        | e :: rest2 =>
            if e = 'u' then
              match rest2 with
              | h1 :: h2 :: h3 :: h4 :: rest3 =>
                  match hexVal h1, hexVal h2, hexVal h3, hexVal h4 with
                  | some a, some b, some c3, some d =>
                      (parseJsonStr fuel rest3).map
                        (fun p => (Char.ofNat (((a * 16 + b) * 16 + c3) * 16 + d) :: p.1, p.2))
                  | _, _, _, _ => none
              | _ => none
            else
              match jsonEscChar e with
              | some ch => (parseJsonStr fuel rest2).map (fun p => (ch :: p.1, p.2))
              | none => none
      else if c.toNat < 32 then none
      else (parseJsonStr fuel rest).map (fun p => (c :: p.1, p.2))

/-- The exponent part of a JSON number lexeme (may be absent). -/
def lexJsonExp (acc : List Char) (l : List Char) : Option (List Char × List Char) :=
  match l with
  | 'e' :: t | 'E' :: t =>
      let e := l.headD 'e'
      let (sgn, t1) := match t with
        | '+' :: t2 => (['+'], t2)
        | '-' :: t2 => (['-'], t2)
        | _ => ([], t)
      let ds := t1.takeWhile (·.isDigit)
      if ds = [] then none
      else some (acc ++ e :: sgn ++ ds, t1.dropWhile (·.isDigit))
  | _ => some (acc, l)

/-- The fraction-and-exponent tail of a JSON number lexeme. -/
def lexJsonFrac (acc : List Char) (l : List Char) : Option (List Char × List Char) :=
  match l with
  | '.' :: t =>
      let ds := t.takeWhile (·.isDigit)
      if ds = [] then none
      else lexJsonExp (acc ++ '.' :: ds) (t.dropWhile (·.isDigit))
  | _ => lexJsonExp acc l

/-- The strict JSON number grammar: `-?(0|[1-9][0-9]*)(\.[0-9]+)?([eE][+-]?[0-9]+)?`. -/
def lexJsonNumber (l : List Char) : Option (List Char × List Char) :=
  let (sgn, l1) := match l with
    | '-' :: t => (['-'], t)
    | _ => ([], l)
  match l1 with
  | '0' :: t => lexJsonFrac (sgn ++ ['0']) t
  | c :: t =>
      if c.isDigit then
        lexJsonFrac (sgn ++ c :: t.takeWhile (·.isDigit)) (t.dropWhile (·.isDigit))
      else none
  | [] => none

mutual

/-- A JSON value with leading whitespace, returning the remainder. -/
def parseJsonValue : Nat → List Char → Option (Json × List Char)
  | 0, _ => none
  | fuel + 1, l =>
      match l.dropWhile isJsonWs with
      | [] => none
      | '"' :: rest => (parseJsonStr (fuel + 1) rest).map (fun p => (.str (String.mk p.1), p.2))
      | '[' :: rest =>
          match rest.dropWhile isJsonWs with
          | ']' :: r2 => some (.arr [], r2)
          | r1 => (parseJsonElems fuel r1).map (fun p => (.arr p.1, p.2))
      | '\x7b' :: rest =>
          match rest.dropWhile isJsonWs with
          | '\x7d' :: r2 => some (.obj [], r2)
          | r1 => (parseJsonMembers fuel r1).map (fun p => (.obj p.1, p.2))
      | 'n' :: rest => if "ull".toList.isPrefixOf rest then some (.null, rest.drop 3) else none
      | 't' :: rest => if "rue".toList.isPrefixOf rest then some (.bool true, rest.drop 3) else none
      | 'f' :: rest => if "alse".toList.isPrefixOf rest then some (.bool false, rest.drop 4) else none
      | l1 =>
          match l1.head? with
          | some c =>
              if c = '-' || c.isDigit then
                (lexJsonNumber l1).map (fun p => (.num (String.mk p.1), p.2))
              else none
          | none => none

/-- The comma-separated elements of a non-empty array, positioned at the
first element; consumes the closing bracket. -/
def parseJsonElems : Nat → List Char → Option (List Json × List Char)
  | 0, _ => none
  | fuel + 1, l =>
      match parseJsonValue fuel l with
      | none => none
      | some (v, r) =>
          match r.dropWhile isJsonWs with
          | ',' :: r2 => (parseJsonElems fuel r2).map (fun p => (v :: p.1, p.2))
          | ']' :: r2 => some ([v], r2)
          | _ => none

/-- The members of a non-empty object, positioned at the first key;
consumes the closing brace. -/
def parseJsonMembers : Nat → List Char → Option (List (String × Json) × List Char)
  | 0, _ => none
  | fuel + 1, l =>
      match l.dropWhile isJsonWs with
      | '"' :: rest =>
          match parseJsonStr (fuel + 1) rest with
          | none => none
          | some (k, r) =>
              match r.dropWhile isJsonWs with
              | ':' :: r2 =>
                  match parseJsonValue fuel r2 with
                  | none => none
                  | some (v, r3) =>
                      match r3.dropWhile isJsonWs with
                      | ',' :: r4 =>
                          (parseJsonMembers fuel r4).map
                            (fun p => ((String.mk k, v) :: p.1, p.2))
                      | '\x7d' :: r4 => some ([(String.mk k, v)], r4)
                      | _ => none
              | _ => none
      | _ => none

end

/-- `JSON.parse(s)`: a single value with only whitespace around it.  The fuel
`4 * length + 4` dominates the recursion depth (each step either consumes a
character or alternates between the value and sequence parsers, which both
consume one before recursing again). -/
def jsonParseChars (l : List Char) : Option Json :=
  match parseJsonValue (4 * l.length + 4) l with
  | some (j, rest) => if rest.dropWhile isJsonWs = [] then some j else none
  | none => none

/-! ### The JSON-extraction regexes of `generateCompetitiveOutline`
(lines 471-472) -/

/-- The backtick character (kept out of the source text). -/
def backtickChar : Char := Char.ofNat 96

/-- The opening token of a fenced JSON block. -/
def fencedOpenMarker : List Char :=
  [backtickChar, backtickChar, backtickChar, 'j', 's', 'o', 'n', '\n']

/-- The closing token of a fenced JSON block. -/
def fencedCloseMarker : List Char :=
  ['\n', backtickChar, backtickChar, backtickChar]

/-- The capture of the lazy fenced-block regex: from the leftmost opening
marker that has a closing marker after it, up to the nearest closing
marker. -/
def fencedCaptureAux : Nat → List Char → Option (List Char)
  | 0, _ => none
  | fuel + 1, l =>
      match findSubstrIdx fencedOpenMarker l with
      | none => none
      | some i =>
          let afterOpen := l.drop (i + fencedOpenMarker.length)
          match findSubstrIdx fencedCloseMarker afterOpen with
          | some j => some (afterOpen.take j)
          | none => fencedCaptureAux fuel (l.drop (i + 1))

/-- The fenced-block capture on a whole response. -/
def fencedCapture (l : List Char) : Option (List Char) :=
  fencedCaptureAux (l.length + 1) l

/-- The match of `/\{[\s\S]*\}/`: from the first opening brace to the last
closing brace, provided the brace pair is ordered. -/
def bracesCapture (l : List Char) : Option (List Char) :=
  match l.findIdx? (· = '\x7b'), l.reverse.findIdx? (· = '\x7d') with
  | some i, some jr =>
      let j := l.length - 1 - jr
      if i < j then some ((l.drop i).take (j - i + 1)) else none
  | _, _ => none

/-- `jsonMatch ? (jsonMatch[1] || jsonMatch[0]) : response`: the fenced
capture when the fenced regex matches (falling back to its whole match when
the capture is the empty string), else the brace match, else the raw
response. -/
def extractJsonString (l : List Char) : List Char :=
  match fencedCapture l with
  | some cap => if cap = [] then fencedOpenMarker ++ fencedCloseMarker else cap
  | none =>
      match bracesCapture l with
      | some m => m
      | none => l

/-! ### `generateCompetitiveOutline`'s parse + return (lines 467-487) -/

/-- Property access `j[k]` on a parsed JSON value (`undefined` off objects
and for absent keys; the last duplicate key wins, as in a JS object
literal). -/
def jsGetField (j : Json) (k : String) : Option Json :=
  match j with
  | .obj ms => (ms.reverse.find? (fun m => m.1 = k)).map (·.2)
  | _ => none

/-- JavaScript falsiness of a parsed JSON value (`null`, `false`, `0`, `''`;
arrays and objects are always truthy). -/
def jsFalsy (j : Json) : Bool :=
  match j with
  | .null => true
  | .bool b => !b
  | .str s => s = ""
  | .num lexeme => ((lexeme.toList.takeWhile (fun c => !(c = 'e' || c = 'E'))).filter
      (·.isDigit)).all (· = '0')
  | .arr _ => false
  | .obj _ => false

/-- JavaScript `v || d` where `v` may be an absent property. -/
def jsOrJson (o : Option Json) (d : Json) : Json :=
  match o with
  | some v => if jsFalsy v then d else v
  | none => d

/-- A fallback-parser section viewed as the plain object it is in JS. -/
def sectionToJson (s : GenSection) : Json :=
  .obj [ ("title", .str s.title)
       , ("description", .str s.description)
       , ("wordCount", .num (toString s.wordCount))
       , ("competitiveAdvantage", .str s.competitiveAdvantage)
       , ("seoValue", .str s.seoValue) ]

/-- The fallback parser's whole result viewed as a plain JS object. -/
def outlineResultToJson (r : OutlineResult) : Json :=
  .obj [ ("outline", .arr (r.outline.map sectionToJson))
       , ("seoStrategy", .str r.seoStrategy)
       , ("targetKeywords", .arr (r.targetKeywords.map Json.str))
       , ("contentGaps", .arr (r.contentGaps.map Json.str))
       , ("uniqueValue", .str r.uniqueValue) ]

/-- `parsedResponse` of `generateCompetitiveOutline`: strict JSON parse of
the extracted string, else the heuristic fallback parser. -/
def parsedCompetitiveResponse (response title : String) : Json :=
  match jsonParseChars (extractJsonString response.toList) with
  | some j => j
  | none => outlineResultToJson (parseOutlineFromText response title)

/-- The defaulted fields `generateCompetitiveOutline` returns
(lines 479-487). -/
structure CompetitiveOutlineFields where
  outline : Json
  seoStrategy : Json
  targetKeywords : Json
  contentGaps : Json
  uniqueValue : Json
deriving Repr

/-- The returned object of `generateCompetitiveOutline` (modulo
`competitorAnalysis`/`researchMethod`, which no claim touches): each field
defaulted with `||`. -/
def competitiveOutlineReturn (response title : String) : CompetitiveOutlineFields :=
  let p := parsedCompetitiveResponse response title
  { outline := jsOrJson (jsGetField p "outline") (.arr [])
    seoStrategy := jsOrJson (jsGetField p "seoStrategy")
      (.str "Comprehensive coverage with better user experience")
    targetKeywords := jsOrJson (jsGetField p "targetKeywords") (.arr [.str title])
    contentGaps := jsOrJson (jsGetField p "contentGaps") (.arr [])
    uniqueValue := jsOrJson (jsGetField p "uniqueValue")
      (.str "More comprehensive and actionable content") }

/-! ### The interactive competitive flow (CompetitiveBlogGenerator.tsx) -/

/-- The `OutlineSection` interface of the page component. -/
structure OSection where
  id : String
  title : String
  description : String
  wordCount : Nat
  selected : Bool
  order : Nat
  content : Option String := none
  isGenerating : Bool := false
deriving DecidableEq, Repr

instance : Inhabited OSection :=
  ⟨{ id := "", title := "", description := "", wordCount := 0, selected := false, order := 0 }⟩

/-- A reorder direction. -/
inductive MoveDir where
  | up
  | down
deriving DecidableEq, Repr

/-- `newOutline.map((section, index) => ({...section, order: index}))`:
reassign every `order` to the array position. -/
def assignOrders (start : Nat) : List OSection → List OSection
  | [] => []
  | s :: rest => { s with order := start } :: assignOrders (start + 1) rest

/-- The destructuring swap of two array positions (both in bounds whenever
the source reaches it). -/
def listSwap (l : List OSection) (i j : Nat) : List OSection :=
  (l.set i (l.getD j default)).set j (l.getD i default)

/-- `handleReorderSection(sectionId, direction)` (lines 131-152): find the
section's index, return the outline unchanged at the boundary (`up` at index
0, `down` at the last index), otherwise swap it with its neighbour and
renumber every `order` to the new array position.  The component only passes
ids of sections present in the outline; an absent id is modelled as a
no-op. -/
def handleReorderSection (sectionId : String) (dir : MoveDir)
    (prev : List OSection) : List OSection :=
  match prev.findIdx? (·.id = sectionId) with
  | none => prev
  | some currentIndex =>
      if (dir = .up && currentIndex = 0)
          || (dir = .down && currentIndex = prev.length - 1) then prev
      else
        let targetIndex := if dir = .up then currentIndex - 1 else currentIndex + 1
        assignOrders 0 (listSwap prev currentIndex targetIndex)

/-- The component state the batch generation loop touches. -/
structure BatchState where
  outline : List OSection
  error : String := ""
deriving DecidableEq, Repr

/-- `handleGenerateSection(sectionId)` (lines 154-191) as one state step.
`stale` is the `outline` captured by the component closure (the pre-batch
render's state) — the `outline.find` and the API call read it, while the
`setOutline` updates apply functionally to the current state.  The
`isGenerating: true` flip and the final `isGenerating: false` flip on the
same section net out.  On API failure the catch scopes the error message to
this section and leaves its `content` unset. -/
def handleGenerateSection (stale : List OSection) (sectionId : String)
    (result : Except String String) (st : BatchState) : BatchState :=
  match stale.find? (·.id = sectionId) with
  | none => st
  | some _ =>
      match result with
      | .ok text =>
          { st with outline := st.outline.map (fun s =>
              if s.id = sectionId then { s with content := some text, isGenerating := false }
              else s) }
      | .error e =>
          { outline := st.outline.map (fun s =>
              if s.id = sectionId then { s with isGenerating := false } else s)
            error := "Failed to generate content for section: " ++ e }

/-- JavaScript `!section.content`, the batch loop's pending test
(CompetitiveBlogGenerator.tsx, line 209): truthiness, so a section counts as
pending when its content is absent *or* the empty string (the content
textarea lets a user clear a section back to `""`). -/
def contentFalsy (c : Option String) : Bool :=
  match c with
  | none => true
  | some s => s = ""

/-- `handleGenerateAllContent` (lines 193-222): iterate the selected sections
of the captured outline in order, generating each one whose content is falsy
(`!section.content`: unset or the empty string).  `handleGenerateSection`
never throws (it catches its own errors), so the loop always runs to the
end.  `results` gives each section's provider outcome. -/
def handleGenerateAllContent (pre : List OSection)
    (results : String → Except String String) : BatchState :=
  ((pre.filter (·.selected)).foldl
    (fun st sec =>
      if contentFalsy sec.content then handleGenerateSection pre sec.id (results sec.id) st
      else st)
    { outline := pre, error := "" })

/-- The per-section effect of one batch step on one outline element: the
element matching the processed id gets the call's outcome (content on
success, only the spinner reset on failure); every other element is left
alone.  A specification function for the theorems below, not source code. -/
def sectionUpd (sid : String) (res : Except String String) (s : OSection) : OSection :=
  if s.id = sid then
    match res with
    | .ok text => { s with content := some text, isGenerating := false }
    | .error _ => { s with isGenerating := false }
  else s

/-- The composite per-element effect of the whole batch, iterating the
selected sections in order (skipping those whose captured `content` was
truthy, i.e. set and non-empty), matching the fold in
`handleGenerateAllContent`. -/
def batchUpd (results : String → Except String String) :
    List OSection → OSection → OSection
  | [], s => s
  | sec :: rest, s =>
      batchUpd results rest
        (if contentFalsy sec.content then sectionUpd sec.id (results sec.id) s else s)

/-! ## Theorems -/

/-- C9: `getGenerationStatus` returns a snapshot exactly when a record with
the requested id owned by the requesting account exists; any other id/owner
combination — a record owned by a different account included — yields the
`'Content not found'` error, and a returned snapshot always reflects a record
owned by the requester. -/
theorem c9_status_owner_isolation : ∀ (cid uid : Nat) (st : Store),
    ((∃ s, getGenerationStatus cid uid st = .ok s) ↔ ∃ r ∈ st, r.id = cid ∧ r.user = uid) ∧
    ((getGenerationStatus cid uid st = .error "Content not found") ↔
      ¬ ∃ r ∈ st, r.id = cid ∧ r.user = uid) ∧
    (∀ s, getGenerationStatus cid uid st = .ok s →
      ∃ r ∈ st, r.id = cid ∧ r.user = uid ∧ s.status = r.status ∧
        s.wordCount = r.metadata.wordCount ∧ s.error = r.generation.error) := by
  intro cid uid st
  cases h : st.find? (fun r => r.id = cid && r.user = uid) with
  | none =>
      have hall := List.find?_eq_none.mp h
      constructor
      · constructor
        · rintro ⟨s, hs⟩
          simp [getGenerationStatus, findOneOwned, h] at hs
        · rintro ⟨r, hr, hid, hu⟩
          exact absurd (by simp [hid, hu]) (hall r hr)
      constructor
      · constructor
        · rintro - ⟨r, hr, hid, hu⟩
          exact absurd (by simp [hid, hu]) (hall r hr)
        · intro _
          simp [getGenerationStatus, findOneOwned, h]
      · intro s hs
        simp [getGenerationStatus, findOneOwned, h] at hs
  | some r =>
      have hmem : r ∈ st := List.mem_of_find?_eq_some h
      have hcond : r.id = cid ∧ r.user = uid := by
        have := List.find?_some h
        simpa using this
      constructor
      · constructor
        · intro _
          exact ⟨r, hmem, hcond⟩
        · intro _
          have hg : getGenerationStatus cid uid st =
              .ok { id := r.id, status := r.status,
                    progress := if r.status = "generating" then 50 else 100,
                    title := r.title, wordCount := r.metadata.wordCount,
                    generationTime := r.generation.generationTime,
                    error := r.generation.error } := by
            simp [getGenerationStatus, findOneOwned, h]
          exact ⟨_, hg⟩
      constructor
      · constructor
        · intro he
          simp [getGenerationStatus, findOneOwned, h] at he
        · intro hno
          exact absurd ⟨r, hmem, hcond⟩ hno
      · intro s hs
        simp only [getGenerationStatus, findOneOwned, h, Except.ok.injEq] at hs
        exact ⟨r, hmem, hcond.1, hcond.2, by rw [← hs], by rw [← hs], by rw [← hs]⟩

/-- C6, counterexample: in the content-generation and section-generation
provider switches, the Google branch passes no token limit at all — no
`maxTokens` derived from the target length reaches that provider. -/
theorem c6_counterexample :
    contentGenMaxTokens .google 1500 = none ∧ sectionGenMaxTokens .google 800 = none :=
  ⟨rfl, rfl⟩

/-- C6 (amended): for OpenAI and Anthropic the token budget is
`min(targetWords * 2, 4000)` in whole-content generation and
`min(sectionWords * 3, 4000)` in section generation — derived from the word
target at 2 or 3 tokens per word and capped at 4000 — while the Google branch
passes no limit; whenever a limit is passed it is at most 4000 and at most
2 (respectively 3) tokens per target word. -/
theorem c6_amended : ∀ w : Nat,
    (contentGenMaxTokens .openai w = some (min (w * 2) 4000) ∧
     contentGenMaxTokens .anthropic w = some (min (w * 2) 4000) ∧
     contentGenMaxTokens .google w = none) ∧
    (sectionGenMaxTokens .openai w = some (min (w * 3) 4000) ∧
     sectionGenMaxTokens .anthropic w = some (min (w * 3) 4000) ∧
     sectionGenMaxTokens .google w = none) ∧
    (∀ p m, contentGenMaxTokens p w = some m → m ≤ 4000 ∧ m ≤ w * 2) ∧
    (∀ p m, sectionGenMaxTokens p w = some m → m ≤ 4000 ∧ m ≤ w * 3) := by
  intro w
  refine ⟨⟨rfl, rfl, rfl⟩, ⟨rfl, rfl, rfl⟩, ?_, ?_⟩
  · intro p m hm
    cases p <;> simp_all [contentGenMaxTokens] <;> omega
  · intro p m hm
    cases p <;> simp_all [sectionGenMaxTokens] <;> omega

/-- C2, counterexample: updating `content` through the `PUT /:id` endpoint
(`findOneAndUpdate`, which bypasses the `pre('save')` hook) leaves
`metadata.wordCount` and `metadata.readingTime` stale: the stored record gets
content `"hello"` (one word) while `wordCount` stays 3. -/
theorem c2_counterexample :
    (putContentUpdate 2 7 { content := some "hello" }
        [{ id := 2, user := 7, title := "t", content := some "a b c",
           metadata := { wordCount := 3, readingTime := 1 } }]).1 =
      [{ id := 2, user := 7, title := "t", content := some "hello",
         metadata := { wordCount := 3, readingTime := 1 } }] ∧
    countWords "hello" = 1 ∧ (3 : Nat) ≠ 1 := by
  refine ⟨by rfl, by rfl, by decide⟩

/-- C2 (amended): the word-count invariant holds on the save path — whenever
a document whose `content` path is modified is saved, the `pre('save')` hook
recomputes `metadata.wordCount` as the whitespace-token count of the content
and `metadata.readingTime` as `ceil(wordCount / 200)` — but the caller-facing
`PUT /:id` update endpoint bypasses this hook (see the counterexample), so
the invariant is only maintained by `save`-path mutations such as the
background task's persistence. -/
theorem c2_amended (r : ContentRecord) (c : String) (r' : ContentRecord)
    (hc : r.content = some c) (hm : r.contentModified = true)
    (hs : saveDoc r = .ok r') :
    r'.content = some c ∧
    r'.metadata.wordCount = countWords c ∧
    r'.metadata.readingTime = readingTimeOf (countWords c) := by
  simp only [saveDoc, hc] at hs
  cases hs
  simp [applySaveHook, hm, hc]

/-- C2, witness. -/
theorem c2_witness :
    ∃ r', saveDoc { id := 1, user := 1, title := "t", content := some "one two three",
                    contentModified := true } = .ok r' ∧
      r'.metadata.wordCount = countWords "one two three" ∧
      r'.metadata.readingTime = readingTimeOf (countWords "one two three") := by
  obtain ⟨-, h2, h3⟩ := c2_amended
    { id := 1, user := 1, title := "t", content := some "one two three",
      contentModified := true }
    "one two three" _ rfl rfl rfl
  exact ⟨_, rfl, h2, h3⟩

/-- C1, counterexample: a request from an account whose `aiSettings` carry a
provider and model but no API key does fail synchronously and creates no
record — but the failure is the schema's `content`-required ValidationError
(the new record is built without the required `content` path), not a
ConfigurationError about credentials: the very same error is produced for an
account with a valid API key, so no missing-credential discovery happens at
start time. -/
theorem c1_counterexample :
    (generateContent { topic := "Intro to Caching", targetLength := some "1500" }
        { id := 7, aiSettings := some { provider := some "openai", model := some "gpt-4" } }
        1 []) =
      ([], .error "Content validation failed: content: Path `content` is required.") ∧
    (generateContent { topic := "Intro to Caching", targetLength := some "1500" }
        { id := 7, aiSettings := some { provider := some "openai", model := some "gpt-4" } }
        1 []) =
      (generateContent { topic := "Intro to Caching", targetLength := some "1500" }
        { id := 7, aiSettings := some { apiKey := some "sk-live-valid", provider := some "openai",
                                        model := some "gpt-4" } }
        1 []) ∧
    "Content validation failed: content: Path `content` is required." ≠ missingKeyMessage := by
  exact ⟨rfl, rfl, by decide⟩

/-- C1 (amended): every start-generation request fails synchronously and
stores no record — for any account and any request — because the record is
created without the schema-required `content` path, so the initial
`content.save()` rejects before the background task is ever scheduled.  The
error is a ValidationError (a TypeError when `aiSettings` is wholly absent),
never the repository's configure-your-API-key message: credentials are not
checked at start time at all. -/
theorem c1_amended : ∀ (params : GenParams) (user : UserAccount) (freshId : Nat) (st : Store),
    (generateContent params user freshId st).1 = st ∧
    ∃ e, (generateContent params user freshId st).2 = .error e ∧
      e ≠ missingKeyMessage ∧
      (user.aiSettings ≠ none →
        e = "Content validation failed: content: Path `content` is required.") := by
  intro params user freshId st
  cases hset : user.aiSettings with
  | none =>
      exact ⟨by simp [generateContent, hset],
        "TypeError: Cannot read properties of undefined (reading 'model')",
        by simp [generateContent, hset], by decide, by simp [hset]⟩
  | some s =>
      exact ⟨by simp [generateContent, hset, saveDoc],
        "Content validation failed: content: Path `content` is required.",
        by simp [generateContent, hset, saveDoc], by decide, fun _ => rfl⟩

/-- C4, counterexample: with the search backend configured and a SerpAPI
response whose `organic_results` array is present but empty, the primary path
succeeds with zero competitors and `performWebResearch` returns the empty
list — no fallback triggers, refuting that the result is always a non-empty
list with rankings `1..N`. -/
theorem c4_counterexample :
    performWebResearch (some "serp-key") "Kubernetes Autoscaling" (.ok (some []))
      (fun _ => .error "unreachable") (fun _ => 0) = [] := rfl

/-- C4 (amended): `performWebResearch` is total and, whenever the search
backend is unconfigured (no key or an empty key) or the primary path throws
(search request failure, or a response with no `organic_results` field), it
returns exactly the deterministic synthetic set: five summaries with ranking
values `1..5`, strictly increasing.  On the primary path, however, each
competitor's ranking is the raw search `position` (falling back to index+1),
and the list has one entry per organic result — so it may be empty and its
rankings need not be `1..N`. -/
theorem c4_amended (serpApiKey : Option String) (topic : String) (outcome : SearchOutcome)
    (pages : Nat → Except String PageData) (rand : Nat → Nat)
    (hfb : serpApiKey = none ∨ serpApiKey = some "" ∨
      (∃ e, outcome = .error e) ∨ outcome = .ok none) :
    performWebResearch serpApiKey topic outcome pages rand = generateMockCompetitors topic ∧
    (generateMockCompetitors topic).length = 5 ∧
    (generateMockCompetitors topic).map (·.ranking) = [1, 2, 3, 4, 5] := by
  refine ⟨?_, rfl, rfl⟩
  rcases hfb with hk | hk | ⟨e, ho⟩ | ho
  · simp [performWebResearch, hk]
  · simp [performWebResearch, hk]
  · cases serpApiKey with
    | none => simp [performWebResearch]
    | some k =>
        by_cases hke : k = ""
        · simp [performWebResearch, hke]
        · simp [performWebResearch, hke, scrapeTopResults, getSearchResults, ho]
  · cases serpApiKey with
    | none => simp [performWebResearch]
    | some k =>
        by_cases hke : k = ""
        · simp [performWebResearch, hke]
        · simp [performWebResearch, hke, scrapeTopResults, getSearchResults, ho]

/-- C4, witness. -/
theorem c4_witness :
    performWebResearch none "Kubernetes Autoscaling" (.ok (some []))
        (fun _ => .error "unreachable") (fun _ => 0) =
      generateMockCompetitors "Kubernetes Autoscaling" ∧
    (generateMockCompetitors "Kubernetes Autoscaling").length = 5 ∧
    (generateMockCompetitors "Kubernetes Autoscaling").map (·.ranking) = [1, 2, 3, 4, 5] :=
  c4_amended none "Kubernetes Autoscaling" (.ok (some []))
    (fun _ => .error "unreachable") (fun _ => 0) (Or.inl rfl)

/-- Every section the heuristic line loop emits carries word count 600. -/
theorem parseLines_wordCount :
    ∀ (lines : List (List Char)) (cur : Option GenSection) (acc : List GenSection),
      (∀ s ∈ acc, s.wordCount = 600) →
      (∀ s, cur = some s → s.wordCount = 600) →
      ∀ s ∈ parseLines lines cur acc, s.wordCount = 600 := by
  intro lines
  induction lines with
  | nil =>
      intro cur acc hacc hcur s hs
      cases cur with
      | none => exact hacc s hs
      | some c =>
          rcases List.mem_append.mp hs with h | h
          · exact hacc s h
          · simp only [List.mem_singleton] at h
            exact h ▸ hcur c rfl
  | cons line rest ih =>
      intro cur acc hacc hcur s hs
      cases cur with
      | some c =>
          have hc : c.wordCount = 600 := hcur c rfl
          simp only [parseLines] at hs
          split at hs
          next capture heq =>
            refine ih _ _ ?_ ?_ s hs
            · intro x hx
              rcases List.mem_append.mp hx with h | h
              · exact hacc x h
              · simp only [List.mem_singleton] at h
                exact h ▸ hc
            · intro x hx
              cases hx
              rfl
          next heq =>
            split at hs
            · refine ih _ _ hacc ?_ s hs
              intro x hx
              cases hx
              exact hc
            · refine ih _ _ hacc ?_ s hs
              intro x hx
              cases hx
              exact hc
      | none =>
          simp only [parseLines] at hs
          split at hs
          next capture heq =>
            refine ih _ _ hacc ?_ s hs
            intro x hx
            cases hx
            rfl
          next heq =>
            exact ih _ _ hacc (by intro x hx; cases hx) s hs

/-- C10: the fallback parser `parseOutlineFromText` is total (it is a Lean
function) and safe: every emitted section has a strictly positive word count
— 600 for every heuristically parsed section, and values within 400..1000
for the default section set — and the returned object always carries
non-empty `seoStrategy`, `targetKeywords` and `uniqueValue` fields. -/
theorem c10_fallback_parser_safety : ∀ text title : String,
    (∀ s ∈ (parseOutlineFromText text title).outline, 0 < s.wordCount) ∧
    (∀ s ∈ heuristicSections text, s.wordCount = 600) ∧
    (∀ s ∈ defaultOutline title, 400 ≤ s.wordCount ∧ s.wordCount ≤ 1000) ∧
    (parseOutlineFromText text title).seoStrategy ≠ "" ∧
    (parseOutlineFromText text title).targetKeywords ≠ [] ∧
    (parseOutlineFromText text title).uniqueValue ≠ "" := by
  intro text title
  have hheur : ∀ s ∈ heuristicSections text, s.wordCount = 600 :=
    parseLines_wordCount _ none [] (by simp) (by simp)
  have hdef : ∀ s ∈ defaultOutline title, 400 ≤ s.wordCount ∧ s.wordCount ≤ 1000 := by
    intro s hs
    simp only [defaultOutline, List.mem_cons, List.not_mem_nil, or_false] at hs
    rcases hs with h | h | h | h | h | h | h <;> subst h <;> exact ⟨by norm_num, by norm_num⟩
  refine ⟨?_, hheur, hdef, by simp only [parseOutlineFromText]; decide,
    by simp [parseOutlineFromText], by simp only [parseOutlineFromText]; decide⟩
  intro s hs
  simp only [parseOutlineFromText] at hs
  by_cases hsec : heuristicSections text = []
  · rw [if_pos hsec] at hs
    have := (hdef s hs).1
    omega
  · rw [if_neg hsec] at hs
    have := hheur s hs
    omega

/-- C5, counterexample: a model response that is valid JSON with an empty
`outline` array parses successfully, so the fallback never runs and
`generateCompetitiveOutline` returns an outline with zero sections — the
pipeline can return an empty outline. -/
theorem c5_counterexample :
    (competitiveOutlineReturn "\x7b\"outline\": []\x7d" "How to Rank").outline =
      Json.arr [] := rfl

/-- C5 (amended): whenever JSON parsing of the (extracted) model response
fails — the case in which the heuristic parser runs — the returned outline is
the fallback parser's outline, which is never empty: it always has at least
one section, and exactly the 7-section (≥ 5) fixed default when the
heuristics find nothing.  A response that parses as valid JSON, however, can
produce an empty outline (see the counterexample). -/
theorem c5_amended (response title : String)
    (hparse : jsonParseChars (extractJsonString response.toList) = none) :
    (competitiveOutlineReturn response title).outline =
      Json.arr ((parseOutlineFromText response title).outline.map sectionToJson) ∧
    (parseOutlineFromText response title).outline ≠ [] ∧
    (heuristicSections response = [] →
      (parseOutlineFromText response title).outline.length = 7) := by
  have hp : parsedCompetitiveResponse response title =
      outlineResultToJson (parseOutlineFromText response title) := by
    simp only [parsedCompetitiveResponse, hparse]
  refine ⟨?_, ?_, ?_⟩
  · simp only [competitiveOutlineReturn]
    rw [hp]
    rfl
  · simp only [parseOutlineFromText]
    by_cases hsec : heuristicSections response = []
    · rw [if_pos hsec]
      simp [defaultOutline]
    · rw [if_neg hsec]
      exact hsec
  · intro hsec
    simp [parseOutlineFromText, hsec, defaultOutline]

/-- C5, witness. -/
theorem c5_witness :
    (competitiveOutlineReturn "hello world this is prose" "T").outline =
      Json.arr ((parseOutlineFromText "hello world this is prose" "T").outline.map
        sectionToJson) ∧
    (parseOutlineFromText "hello world this is prose" "T").outline ≠ [] ∧
    (heuristicSections "hello world this is prose" = [] →
      (parseOutlineFromText "hello world this is prose" "T").outline.length = 7) :=
  c5_amended "hello world this is prose" "T" rfl

/-- `findIdx?` on a list whose first satisfying element sits after a
non-satisfying block. -/
theorem findIdx?_append_first {α : Type} (p : α → Bool) (b : α) :
    ∀ (l₁ l₂ : List α) (i : Nat),
      (∀ x ∈ l₁, p x = false) → p b = true →
      List.findIdx? p (l₁ ++ b :: l₂) i = some (i + l₁.length) := by
  intro l₁
  induction l₁ with
  | nil =>
      intro l₂ i h hp
      simp [List.findIdx?_cons, hp]
  | cons c t ih =>
      intro l₂ i h hp
      have hc : p c = false := h c (by simp)
      simp only [List.cons_append, List.findIdx?_cons, hc, Bool.false_eq_true, if_false]
      rw [ih l₂ (i + 1) (fun x hx => h x (by simp [hx])) hp]
      congr 1
      simp only [List.length_cons]
      omega

/-- Swapping adjacent positions `n+1` and `n` (the `up` move). -/
theorem listSwap_adj_up (a b : OSection) :
    ∀ (l₁ l₂ : List OSection),
      listSwap (l₁ ++ a :: b :: l₂) (l₁.length + 1) l₁.length = l₁ ++ b :: a :: l₂ := by
  intro l₁
  induction l₁ with
  | nil =>
      intro l₂
      simp [listSwap]
  | cons c t ih =>
      intro l₂
      have h := ih l₂
      simp only [listSwap] at h ⊢
      simp only [List.cons_append, List.length_cons, List.getD_cons_succ, List.set_cons_succ]
      rw [h]

/-- Swapping adjacent positions `n` and `n+1` (the `down` move). -/
theorem listSwap_adj_down (a b : OSection) :
    ∀ (l₁ l₂ : List OSection),
      listSwap (l₁ ++ a :: b :: l₂) l₁.length (l₁.length + 1) = l₁ ++ b :: a :: l₂ := by
  intro l₁
  induction l₁ with
  | nil =>
      intro l₂
      simp [listSwap]
  | cons c t ih =>
      intro l₂
      have h := ih l₂
      simp only [listSwap] at h ⊢
      simp only [List.cons_append, List.length_cons, List.getD_cons_succ, List.set_cons_succ]
      rw [h]

/-- Renumbering distributes over append. -/
theorem assignOrders_append (l₁ : List OSection) :
    ∀ (l₂ : List OSection) (k : Nat),
      assignOrders k (l₁ ++ l₂) = assignOrders k l₁ ++ assignOrders (k + l₁.length) l₂ := by
  induction l₁ with
  | nil => intro l₂ k; simp [assignOrders]
  | cons s t ih =>
      intro l₂ k
      rw [List.cons_append]
      simp only [assignOrders]
      rw [List.cons_append, ih]
      have h2 : k + 1 + t.length = k + (t.length + 1) := by omega
      rw [h2, List.length_cons]

/-- Renumbering twice is renumbering once. -/
theorem assignOrders_assignOrders (l : List OSection) :
    ∀ (j k : Nat), assignOrders k (assignOrders j l) = assignOrders k l := by
  induction l with
  | nil => intro j k; rfl
  | cons s t ih => intro j k; simp [assignOrders, ih]

/-- Renumbering keeps the length. -/
theorem assignOrders_length (l : List OSection) :
    ∀ k, (assignOrders k l).length = l.length := by
  induction l with
  | nil => intro k; rfl
  | cons s t ih => intro k; simp [assignOrders, ih]

/-- Renumbering keeps every id-property. -/
theorem assignOrders_forall_id (q : String → Prop) (l : List OSection) :
    ∀ k, (∀ x ∈ l, q x.id) → ∀ x ∈ assignOrders k l, q x.id := by
  induction l with
  | nil => intro k h x hx; cases hx
  | cons s t ih =>
      intro k h x hx
      rcases List.mem_cons.mp hx with rfl | hx
      · exact h s (by simp)
      · exact ih (k + 1) (fun y hy => h y (by simp [hy])) x hx

/-- Renumbering a two-element middle section with stale `order` values and
renumbered surroundings is renumbering the original list: the `order` values
are overwritten wholesale. -/
theorem assignOrders_absorb (a b : OSection) (x y : Nat) :
    ∀ (l₁ : List OSection) (i : Nat) (l₂ : List OSection) (j k : Nat),
      assignOrders k (assignOrders i l₁ ++
          { a with order := x } :: { b with order := y } :: assignOrders j l₂) =
        assignOrders k (l₁ ++ a :: b :: l₂) := by
  intro l₁
  induction l₁ with
  | nil =>
      intro i l₂ j k
      simp [assignOrders, assignOrders_assignOrders]
  | cons c t ih =>
      intro i l₂ j k
      show assignOrders k (({ c with order := i } :: assignOrders (i + 1) t) ++ _) = _
      rw [List.cons_append, List.cons_append]
      simp only [assignOrders]
      rw [ih (i + 1) l₂ j (k + 1)]

/-- Splitting a renumbering around a two-element middle. -/
theorem assignOrders_append_cons₂ (l₁ : List OSection) (u v : OSection) (l₂ : List OSection)
    (k : Nat) :
    assignOrders k (l₁ ++ u :: v :: l₂) =
      assignOrders k l₁ ++ { u with order := k + l₁.length } ::
        { v with order := k + l₁.length + 1 } :: assignOrders (k + l₁.length + 2) l₂ := by
  rw [assignOrders_append]
  simp only [assignOrders]

/-- C7, counterexample: moving the *first* section up is a no-op, so moving
it up and then down leaves it moved down — the round trip does not restore
the outline at the boundary. -/
theorem c7_counterexample :
    handleReorderSection "section-0" .down
        (handleReorderSection "section-0" .up
          [ { id := "section-0", title := "A", description := "", wordCount := 800,
              selected := true, order := 0 }
          , { id := "section-1", title := "B", description := "", wordCount := 800,
              selected := true, order := 1 } ]) ≠
      [ { id := "section-0", title := "A", description := "", wordCount := 800,
          selected := true, order := 0 }
      , { id := "section-1", title := "B", description := "", wordCount := 800,
          selected := true, order := 1 } ] := by decide

/-- A non-first section moved `up` swaps with its predecessor and renumbers. -/
theorem handleReorder_mid_up (prev : List OSection) (sid : String) (i : Nat)
    (hfind : List.findIdx? (fun x => decide (x.id = sid)) prev 0 = some (i + 1)) :
    handleReorderSection sid .up prev = assignOrders 0 (listSwap prev (i + 1) i) := by
  simp [handleReorderSection, hfind]

/-- A non-last section moved `down` swaps with its successor and renumbers. -/
theorem handleReorder_mid_down (prev : List OSection) (sid : String) (i : Nat)
    (hfind : List.findIdx? (fun x => decide (x.id = sid)) prev 0 = some i)
    (hlt : i + 1 < prev.length) :
    handleReorderSection sid .down prev = assignOrders 0 (listSwap prev i (i + 1)) := by
  have hne : ¬ i = prev.length - 1 := by omega
  simp [handleReorderSection, hfind, hne]

/-- C7 (amended): in an outline with pairwise-distinct section ids whose
`order` values match the array positions (which every reorder establishes),
moving any *non-first* section up and then down — and any *non-last* section
down and then up — restores the outline exactly.  At the boundary the first
move is a no-op and the second move still swaps, so the round trip does not
restore the outline there (see the counterexample). -/
theorem c7_amended (l₁ : List OSection) (a b : OSection) (l₂ : List OSection)
    (hids : ((l₁ ++ a :: b :: l₂).map (·.id)).Nodup)
    (hnorm : assignOrders 0 (l₁ ++ a :: b :: l₂) = l₁ ++ a :: b :: l₂) :
    handleReorderSection b.id .down
        (handleReorderSection b.id .up (l₁ ++ a :: b :: l₂)) = l₁ ++ a :: b :: l₂ ∧
    handleReorderSection a.id .up
        (handleReorderSection a.id .down (l₁ ++ a :: b :: l₂)) = l₁ ++ a :: b :: l₂ := by
  have hmap : (l₁ ++ a :: b :: l₂).map (·.id) =
      l₁.map (·.id) ++ a.id :: b.id :: l₂.map (·.id) := by simp
  rw [hmap] at hids
  obtain ⟨hn1, hn2, hdisj⟩ := List.nodup_append.mp hids
  have hanotl : a.id ∉ l₁.map (·.id) := fun hmem => hdisj hmem (by simp)
  have hbnotl : b.id ∉ l₁.map (·.id) := fun hmem => hdisj hmem (by simp)
  have hab : a.id ≠ b.id := by
    have h := List.nodup_cons.mp hn2
    exact fun he => h.1 (by simp [he])
  -- the shared intermediate state: the outline with `a` and `b` swapped,
  -- decomposed after renumbering
  have e2 : assignOrders 0 (l₁ ++ b :: a :: l₂) =
      assignOrders 0 l₁ ++ { b with order := l₁.length } ::
        { a with order := l₁.length + 1 } :: assignOrders (l₁.length + 2) l₂ := by
    simpa using assignOrders_append_cons₂ l₁ b a l₂ 0
  have hA₁ : ∀ q : String, q ∉ l₁.map (·.id) →
      ∀ x ∈ assignOrders 0 l₁, (decide (x.id = q)) = false := by
    intro q hq x hx
    simp only [decide_eq_false_iff_not]
    refine assignOrders_forall_id (fun i => ¬ i = q) l₁ 0 ?_ x hx
    intro y hy he
    exact hq (he ▸ List.mem_map_of_mem (·.id) hy)
  have hmidlen : (assignOrders 0 l₁ ++ { b with order := l₁.length } ::
      { a with order := l₁.length + 1 } :: assignOrders (l₁.length + 2) l₂).length =
      l₁.length + (l₂.length + 2) := by
    simp [assignOrders_length]
  constructor
  · -- up, then down, on `b`
    have hf1 : List.findIdx? (fun x => decide (x.id = b.id)) (l₁ ++ a :: b :: l₂) 0 =
        some (l₁.length + 1) := by
      have hside : ∀ x ∈ l₁ ++ [a], (fun x => decide (x.id = b.id)) x = false := by
        intro x hx
        rcases List.mem_append.mp hx with h | h
        · simp only [decide_eq_false_iff_not]
          intro he
          exact hbnotl (he ▸ List.mem_map_of_mem (·.id) h)
        · simp only [List.mem_singleton] at h
          subst h
          simp [hab]
      have h0 := findIdx?_append_first (fun x => decide (x.id = b.id)) b (l₁ ++ [a]) l₂ 0
        hside (by simp)
      rw [List.append_assoc] at h0
      simpa using h0
    have e1 : handleReorderSection b.id .up (l₁ ++ a :: b :: l₂) =
        assignOrders 0 (l₁ ++ b :: a :: l₂) := by
      rw [handleReorder_mid_up _ _ l₁.length hf1, listSwap_adj_up]
    have hf2 : List.findIdx? (fun x => decide (x.id = b.id))
        (assignOrders 0 l₁ ++ { b with order := l₁.length } ::
          { a with order := l₁.length + 1 } :: assignOrders (l₁.length + 2) l₂) 0 =
        some l₁.length := by
      have h0 := findIdx?_append_first (fun x => decide (x.id = b.id))
        { b with order := l₁.length } (assignOrders 0 l₁)
        ({ a with order := l₁.length + 1 } :: assignOrders (l₁.length + 2) l₂) 0
        (hA₁ b.id hbnotl) (by simp)
      simpa [assignOrders_length] using h0
    have e3 := handleReorder_mid_down _ b.id l₁.length hf2 (by rw [hmidlen]; omega)
    have e4 : listSwap (assignOrders 0 l₁ ++ { b with order := l₁.length } ::
        { a with order := l₁.length + 1 } :: assignOrders (l₁.length + 2) l₂)
          l₁.length (l₁.length + 1) =
        assignOrders 0 l₁ ++ { a with order := l₁.length + 1 } ::
          { b with order := l₁.length } :: assignOrders (l₁.length + 2) l₂ := by
      have h0 := listSwap_adj_down { b with order := l₁.length }
        { a with order := l₁.length + 1 } (assignOrders 0 l₁)
        (assignOrders (l₁.length + 2) l₂)
      simpa [assignOrders_length] using h0
    rw [e1, e2, e3, e4, assignOrders_absorb, hnorm]
  · -- down, then up, on `a`
    have hf1 : List.findIdx? (fun x => decide (x.id = a.id)) (l₁ ++ a :: b :: l₂) 0 =
        some l₁.length := by
      have hside : ∀ x ∈ l₁, (fun x => decide (x.id = a.id)) x = false := by
        intro x hx
        simp only [decide_eq_false_iff_not]
        intro he
        exact hanotl (he ▸ List.mem_map_of_mem (·.id) hx)
      have h0 := findIdx?_append_first (fun x => decide (x.id = a.id)) a l₁ (b :: l₂) 0
        hside (by simp)
      simpa using h0
    have e1 : handleReorderSection a.id .down (l₁ ++ a :: b :: l₂) =
        assignOrders 0 (l₁ ++ b :: a :: l₂) := by
      rw [handleReorder_mid_down _ _ l₁.length hf1 (by simp), listSwap_adj_down]
    have hf2 : List.findIdx? (fun x => decide (x.id = a.id))
        (assignOrders 0 l₁ ++ { b with order := l₁.length } ::
          { a with order := l₁.length + 1 } :: assignOrders (l₁.length + 2) l₂) 0 =
        some (l₁.length + 1) := by
      have hside : ∀ x ∈ assignOrders 0 l₁ ++ [{ b with order := l₁.length }],
          (fun x => decide (x.id = a.id)) x = false := by
        intro x hx
        rcases List.mem_append.mp hx with h | h
        · exact hA₁ a.id hanotl x h
        · simp only [List.mem_singleton] at h
          subst h
          simp only [decide_eq_false_iff_not]
          exact fun he => hab he.symm
      have h0 := findIdx?_append_first (fun x => decide (x.id = a.id))
        { a with order := l₁.length + 1 }
        (assignOrders 0 l₁ ++ [{ b with order := l₁.length }])
        (assignOrders (l₁.length + 2) l₂) 0 hside (by simp)
      rw [List.append_assoc] at h0
      simpa [assignOrders_length] using h0
    have e3 := handleReorder_mid_up _ a.id l₁.length hf2
    have e4 : listSwap (assignOrders 0 l₁ ++ { b with order := l₁.length } ::
        { a with order := l₁.length + 1 } :: assignOrders (l₁.length + 2) l₂)
          (l₁.length + 1) l₁.length =
        assignOrders 0 l₁ ++ { a with order := l₁.length + 1 } ::
          { b with order := l₁.length } :: assignOrders (l₁.length + 2) l₂ := by
      have h0 := listSwap_adj_up { b with order := l₁.length }
        { a with order := l₁.length + 1 } (assignOrders 0 l₁)
        (assignOrders (l₁.length + 2) l₂)
      simpa [assignOrders_length] using h0
    rw [e1, e2, e3, e4, assignOrders_absorb, hnorm]

/-- C7, witness. -/
theorem c7_witness :
    handleReorderSection "s1" .up
        (handleReorderSection "s1" .down
          ([ { id := "s0", title := "A", description := "", wordCount := 500,
               selected := true, order := 0 } ] ++
            { id := "s1", title := "B", description := "", wordCount := 600,
              selected := true, order := 1 } ::
            { id := "s2", title := "C", description := "", wordCount := 700,
              selected := true, order := 2 } :: [])) =
      [ { id := "s0", title := "A", description := "", wordCount := 500,
          selected := true, order := 0 } ] ++
        { id := "s1", title := "B", description := "", wordCount := 600,
          selected := true, order := 1 } ::
        { id := "s2", title := "C", description := "", wordCount := 700,
          selected := true, order := 2 } :: [] :=
  (c7_amended
    [ { id := "s0", title := "A", description := "", wordCount := 500,
        selected := true, order := 0 } ]
    { id := "s1", title := "B", description := "", wordCount := 600,
      selected := true, order := 1 }
    { id := "s2", title := "C", description := "", wordCount := 700,
      selected := true, order := 2 }
    [] (by decide) (by decide)).2

/-- `batchUpd` over no sections changes nothing. -/
theorem batchUpd_nil_map (results : String → Except String String) (l : List OSection) :
    l.map (batchUpd results []) = l := by
  induction l with
  | nil => rfl
  | cons s t ih => simp [batchUpd, ih]

/-- `batchUpd` splits along an append of the section list. -/
theorem batchUpd_append (results : String → Except String String) :
    ∀ (u v : List OSection) (s : OSection),
      batchUpd results (u ++ v) s = batchUpd results v (batchUpd results u s) := by
  intro u
  induction u with
  | nil => intro v s; rfl
  | cons sec rest ih =>
      intro v s
      simp only [List.cons_append, batchUpd]
      exact ih v _

/-- `sectionUpd` on the matching section, successful call. -/
theorem sectionUpd_hit_ok (s : OSection) (c : String) :
    sectionUpd s.id (.ok c) s = { s with content := some c, isGenerating := false } := by
  simp [sectionUpd]

/-- `sectionUpd` on the matching section, failing call. -/
theorem sectionUpd_hit_error (s : OSection) (e : String) :
    sectionUpd s.id (.error e) s = { s with isGenerating := false } := by
  simp [sectionUpd]

/-- `sectionUpd` on any other section. -/
theorem sectionUpd_miss (sid : String) (res : Except String String) (s : OSection)
    (h : ¬ s.id = sid) : sectionUpd sid res s = s := by
  simp [sectionUpd, h]

/-- A section whose id matches no processed pending section is untouched. -/
theorem batchUpd_frame (results : String → Except String String) :
    ∀ (secs : List OSection) (s : OSection),
      (∀ sec ∈ secs, contentFalsy sec.content = true → sec.id ≠ s.id) →
      batchUpd results secs s = s := by
  intro secs
  induction secs with
  | nil => intro s _; rfl
  | cons sec rest ih =>
      intro s h
      simp only [batchUpd]
      by_cases hc : contentFalsy sec.content = true
      · rw [if_pos hc]
        have hne : ¬ s.id = sec.id := fun he => h sec (by simp) hc he.symm
        rw [sectionUpd_miss sec.id (results sec.id) s hne]
        exact ih s (fun x hx => h x (by simp [hx]))
      · rw [if_neg hc]
        exact ih s (fun x hx => h x (by simp [hx]))

/-- The processed pending section itself ends up with its call's outcome:
its own content on failure (unset or the cleared empty string), the
generated text on success. -/
theorem batchUpd_pending (results : String → Except String String)
    (u v : List OSection) (s : OSection)
    (hu : ∀ x ∈ u, x.id ≠ s.id) (hv : ∀ x ∈ v, x.id ≠ s.id)
    (hc : contentFalsy s.content = true) :
    (batchUpd results (u ++ s :: v) s).content =
      (match results s.id with
       | .ok c => some c
       | .error _ => s.content) := by
  rw [batchUpd_append, batchUpd_frame results u s (fun x hx _ => hu x hx)]
  simp only [batchUpd]
  rw [if_pos hc]
  cases hres : results s.id with
  | ok c =>
      rw [sectionUpd_hit_ok]
      rw [batchUpd_frame results v { s with content := some c, isGenerating := false }
        (fun x hx _ => hv x hx)]
  | error e =>
      rw [sectionUpd_hit_error]
      rw [batchUpd_frame results v { s with isGenerating := false }
        (fun x hx _ => hv x hx)]

/-- `batchUpd` only ever touches `content` and `isGenerating`. -/
theorem batchUpd_fields (results : String → Except String String) :
    ∀ (secs : List OSection) (s : OSection),
      (batchUpd results secs s).id = s.id ∧
      (batchUpd results secs s).title = s.title ∧
      (batchUpd results secs s).description = s.description ∧
      (batchUpd results secs s).wordCount = s.wordCount ∧
      (batchUpd results secs s).selected = s.selected ∧
      (batchUpd results secs s).order = s.order := by
  intro secs
  induction secs with
  | nil => intro s; exact ⟨rfl, rfl, rfl, rfl, rfl, rfl⟩
  | cons sec rest ih =>
      intro s
      simp only [batchUpd]
      have hstep : ∀ t : OSection,
          (sectionUpd sec.id (results sec.id) t).id = t.id ∧
          (sectionUpd sec.id (results sec.id) t).title = t.title ∧
          (sectionUpd sec.id (results sec.id) t).description = t.description ∧
          (sectionUpd sec.id (results sec.id) t).wordCount = t.wordCount ∧
          (sectionUpd sec.id (results sec.id) t).selected = t.selected ∧
          (sectionUpd sec.id (results sec.id) t).order = t.order := by
        intro t
        simp only [sectionUpd]
        split
        · split <;> exact ⟨rfl, rfl, rfl, rfl, rfl, rfl⟩
        · exact ⟨rfl, rfl, rfl, rfl, rfl, rfl⟩
      by_cases hc : contentFalsy sec.content = true
      · rw [if_pos hc]
        obtain ⟨h1, h2, h3, h4, h5, h6⟩ := ih (sectionUpd sec.id (results sec.id) s)
        obtain ⟨g1, g2, g3, g4, g5, g6⟩ := hstep s
        exact ⟨h1.trans g1, h2.trans g2, h3.trans g3, h4.trans g4, h5.trans g5, h6.trans g6⟩
      · rw [if_neg hc]
        exact ih s

/-- One batch step rewrites the state's outline by `sectionUpd` whenever the
processed id exists in the captured outline. -/
theorem handleGenerateSection_outline (pre : List OSection) (sid : String)
    (res : Except String String) (st : BatchState)
    (hfind : (pre.find? (fun x => decide (x.id = sid))).isSome = true) :
    (handleGenerateSection pre sid res st).outline =
      st.outline.map (sectionUpd sid res) := by
  obtain ⟨u, hu⟩ := Option.isSome_iff_exists.mp hfind
  cases res with
  | ok text =>
      have hfun : (fun s : OSection => if s.id = sid then
          { s with content := some text, isGenerating := false } else s) =
          sectionUpd sid (.ok text) := by
        funext s
        simp only [sectionUpd]
      simp only [handleGenerateSection, hu]
      rw [hfun]
  | error e =>
      have hfun : (fun s : OSection => if s.id = sid then
          { s with isGenerating := false } else s) = sectionUpd sid (.error e) := by
        funext s
        simp only [sectionUpd]
      simp only [handleGenerateSection, hu]
      rw [hfun]

/-- One batch step either keeps the error message or sets a section-scoped
failure message. -/
theorem handleGenerateSection_error (pre : List OSection) (sid : String)
    (res : Except String String) (st : BatchState) :
    (handleGenerateSection pre sid res st).error = st.error ∨
    ∃ e, res = .error e ∧ (handleGenerateSection pre sid res st).error =
      "Failed to generate content for section: " ++ e := by
  cases hfind : pre.find? (fun x => decide (x.id = sid)) with
  | none => exact Or.inl (by simp [handleGenerateSection, hfind])
  | some u =>
      cases res with
      | ok t => exact Or.inl (by simp [handleGenerateSection, hfind])
      | error e => exact Or.inr ⟨e, rfl, by simp [handleGenerateSection, hfind]⟩

/-- A failing step on an existing section sets the section-scoped message. -/
theorem handleGenerateSection_error_failed (pre : List OSection) (sid e : String)
    (st : BatchState)
    (hfind : (pre.find? (fun x => decide (x.id = sid))).isSome = true) :
    (handleGenerateSection pre sid (.error e) st).error =
      "Failed to generate content for section: " ++ e := by
  obtain ⟨u, hu⟩ := Option.isSome_iff_exists.mp hfind
  simp [handleGenerateSection, hu]

/-- The batch fold maps `batchUpd` over the state's outline. -/
theorem batchFold_outline (pre : List OSection) (results : String → Except String String) :
    ∀ (secs : List OSection) (st : BatchState),
      (∀ sec ∈ secs, (pre.find? (fun x => decide (x.id = sec.id))).isSome = true) →
      (secs.foldl (fun st sec => if contentFalsy sec.content then
          handleGenerateSection pre sec.id (results sec.id) st else st) st).outline =
        st.outline.map (batchUpd results secs) := by
  intro secs
  induction secs with
  | nil =>
      intro st _
      exact (batchUpd_nil_map results st.outline).symm
  | cons sec rest ih =>
      intro st h
      simp only [List.foldl_cons]
      by_cases hc : contentFalsy sec.content = true
      · rw [if_pos hc, ih _ (fun x hx => h x (by simp [hx])),
          handleGenerateSection_outline pre sec.id (results sec.id) st (h sec (by simp)),
          List.map_map]
        congr 1
        funext s
        show batchUpd results rest (sectionUpd sec.id (results sec.id) s) =
          batchUpd results (sec :: rest) s
        simp [batchUpd, hc]
      · rw [if_neg hc, ih _ (fun x hx => h x (by simp [hx]))]
        congr 1
        funext s
        show batchUpd results rest s = batchUpd results (sec :: rest) s
        simp [batchUpd, hc]

/-- Once the error field carries a section-scoped failure message, the rest
of the batch keeps one there (later successes do not clear it). -/
theorem batchFold_error_keeps (pre : List OSection) (results : String → Except String String) :
    ∀ (secs : List OSection) (st : BatchState) (m : String),
      st.error = "Failed to generate content for section: " ++ m →
      ∃ m', (secs.foldl (fun st sec => if contentFalsy sec.content then
          handleGenerateSection pre sec.id (results sec.id) st else st) st).error =
        "Failed to generate content for section: " ++ m' := by
  intro secs
  induction secs with
  | nil => intro st m hm; exact ⟨m, hm⟩
  | cons sec rest ih =>
      intro st m hm
      simp only [List.foldl_cons]
      by_cases hc : contentFalsy sec.content = true
      · rw [if_pos hc]
        rcases handleGenerateSection_error pre sec.id (results sec.id) st with hk | ⟨e, _, hset⟩
        · exact ih _ m (hk.trans hm)
        · exact ih _ e hset
      · rw [if_neg hc]
        exact ih st m hm

/-- If some processed pending section's call fails, the batch ends with a
section-scoped failure message in the error field. -/
theorem batchFold_error_sets (pre : List OSection) (results : String → Except String String) :
    ∀ (secs : List OSection) (st : BatchState),
      (∀ sec ∈ secs, (pre.find? (fun x => decide (x.id = sec.id))).isSome = true) →
      (∃ sec ∈ secs, contentFalsy sec.content = true ∧ ∃ e, results sec.id = .error e) →
      ∃ m, (secs.foldl (fun st sec => if contentFalsy sec.content then
          handleGenerateSection pre sec.id (results sec.id) st else st) st).error =
        "Failed to generate content for section: " ++ m := by
  intro secs
  induction secs with
  | nil =>
      intro st _ hex
      rcases hex with ⟨sec, hmem, -⟩
      cases hmem
  | cons sec rest ih =>
      intro st h hex
      simp only [List.foldl_cons]
      rcases hex with ⟨w, hwmem, hwc, e, hwe⟩
      rcases List.mem_cons.mp hwmem with rfl | hwrest
      · rw [if_pos hwc]
        have hset : (handleGenerateSection pre w.id (results w.id) st).error =
            "Failed to generate content for section: " ++ e := by
          rw [hwe]
          exact handleGenerateSection_error_failed pre w.id e st (h w (by simp))
        exact batchFold_error_keeps pre results rest _ e hset
      · by_cases hc : contentFalsy sec.content = true
        · rw [if_pos hc]
          exact ih _ (fun x hx => h x (by simp [hx])) ⟨w, hwrest, hwc, e, hwe⟩
        · rw [if_neg hc]
          exact ih _ (fun x hx => h x (by simp [hx])) ⟨w, hwrest, hwc, e, hwe⟩

/-- C8, counterexample: in a batch where the first selected section's
provider call fails, the loop continues — the pending second section does
*not* remain pending but is generated, and a third section whose content is
the cleared empty string (falsy for the `!section.content` test) is
regenerated rather than kept; only a section with non-empty content is left
unchanged, while the failing section ends without content and with the
scoped error. -/
theorem c8_counterexample :
    ((handleGenerateAllContent
        [ { id := "s0", title := "A", description := "", wordCount := 500,
            selected := true, order := 0 }
        , { id := "s1", title := "B", description := "", wordCount := 600,
            selected := true, order := 1 }
        , { id := "s2", title := "C", description := "", wordCount := 700,
            selected := true, order := 2, content := some "" } ]
        (fun i => if i = "s0" then .error "boom" else .ok "generated text")).outline.map
      (fun s => (s.id, s.content))) =
      [("s0", none), ("s1", some "generated text"), ("s2", some "generated text")] ∧
    (handleGenerateAllContent
        [ { id := "s0", title := "A", description := "", wordCount := 500,
            selected := true, order := 0 }
        , { id := "s1", title := "B", description := "", wordCount := 600,
            selected := true, order := 1 }
        , { id := "s2", title := "C", description := "", wordCount := 700,
            selected := true, order := 2, content := some "" } ]
        (fun i => if i = "s0" then .error "boom" else .ok "generated text")).error =
      "Failed to generate content for section: boom" := by
  exact ⟨by decide, by decide⟩

/-- C8 (amended): during batch generation with pairwise-distinct section ids,
sections with non-empty content keep it exactly, unselected sections are
untouched, and a failing section ends with its content unchanged (unset, or
the cleared empty string) and a section-scoped error recorded; but the batch
does *not* stop at a failure — every selected section whose content is falsy
(`!section.content`: unset or the empty string) is still processed,
receiving its own call's content on success. -/
theorem c8_amended (pre : List OSection) (results : String → Except String String)
    (hids : (pre.map (·.id)).Nodup) :
    (handleGenerateAllContent pre results).outline.length = pre.length ∧
    (∀ i, i < pre.length →
      ((handleGenerateAllContent pre results).outline.getD i default).id =
        (pre.getD i default).id ∧
      ((handleGenerateAllContent pre results).outline.getD i default).title =
        (pre.getD i default).title ∧
      ((handleGenerateAllContent pre results).outline.getD i default).selected =
        (pre.getD i default).selected ∧
      ((handleGenerateAllContent pre results).outline.getD i default).order =
        (pre.getD i default).order ∧
      (∀ c, (pre.getD i default).content = some c → ¬ c = "" →
        ((handleGenerateAllContent pre results).outline.getD i default).content = some c) ∧
      ((pre.getD i default).selected = false →
        (handleGenerateAllContent pre results).outline.getD i default =
          pre.getD i default) ∧
      ((pre.getD i default).selected = true →
        contentFalsy (pre.getD i default).content = true →
        ((handleGenerateAllContent pre results).outline.getD i default).content =
          (match results (pre.getD i default).id with
           | .ok c => some c
           | .error _ => (pre.getD i default).content))) ∧
    ((∃ s ∈ pre, s.selected = true ∧ contentFalsy s.content = true ∧
        ∃ e, results s.id = .error e) →
      ∃ m, (handleGenerateAllContent pre results).error =
        "Failed to generate content for section: " ++ m) := by
  have hfind : ∀ sec ∈ pre.filter (·.selected),
      (pre.find? (fun x => decide (x.id = sec.id))).isSome = true := by
    intro sec hsec
    exact List.find?_isSome.mpr ⟨sec, (List.mem_filter.mp hsec).1, by simp⟩
  have hout : (handleGenerateAllContent pre results).outline =
      pre.map (batchUpd results (pre.filter (·.selected))) :=
    batchFold_outline pre results (pre.filter (·.selected))
      { outline := pre, error := "" } hfind
  have hinj := List.inj_on_of_nodup_map hids
  refine ⟨by rw [hout]; simp, ?_, ?_⟩
  · intro i hi
    have hmaplen : i < (pre.map (batchUpd results (pre.filter (·.selected)))).length := by
      simpa using hi
    have hpi : (handleGenerateAllContent pre results).outline.getD i default =
        batchUpd results (pre.filter (·.selected)) (pre.getD i default) := by
      rw [hout, List.getD_eq_getElem _ _ hmaplen, List.getElem_map,
        List.getD_eq_getElem _ _ hi]
    have hp_mem : pre.getD i default ∈ pre := by
      rw [List.getD_eq_getElem _ _ hi]
      exact List.getElem_mem hi
    obtain ⟨h1, h2, h3, h4, h5, h6⟩ :=
      batchUpd_fields results (pre.filter (·.selected)) (pre.getD i default)
    refine ⟨by rw [hpi]; exact h1, by rw [hpi]; exact h2, by rw [hpi]; exact h5,
      by rw [hpi]; exact h6, ?_, ?_, ?_⟩
    · intro c hc hne
      have hframe : ∀ sec ∈ pre.filter (·.selected), contentFalsy sec.content = true →
          sec.id ≠ (pre.getD i default).id := by
        intro sec hsec hcn he
        have heq : sec = pre.getD i default :=
          hinj (List.mem_filter.mp hsec).1 hp_mem he
        rw [heq, hc] at hcn
        simp only [contentFalsy, decide_eq_true_eq] at hcn
        exact hne hcn
      rw [hpi, batchUpd_frame results _ _ hframe]
      exact hc
    · intro hsel
      have hframe : ∀ sec ∈ pre.filter (·.selected), contentFalsy sec.content = true →
          sec.id ≠ (pre.getD i default).id := by
        intro sec hsec hcn he
        have heq : sec = pre.getD i default :=
          hinj (List.mem_filter.mp hsec).1 hp_mem he
        have hsel2 : sec.selected = true := by
          simpa using (List.mem_filter.mp hsec).2
        rw [heq, hsel] at hsel2
        cases hsel2
      rw [hpi, batchUpd_frame results _ _ hframe]
    · intro hsel hcn
      have hpfil : pre.getD i default ∈ pre.filter (·.selected) :=
        List.mem_filter.mpr ⟨hp_mem, by simpa using hsel⟩
      obtain ⟨u, v, huv⟩ := List.append_of_mem hpfil
      have hnd : ((pre.filter (·.selected)).map (·.id)).Nodup :=
        List.Nodup.sublist (List.Sublist.map _ (List.filter_sublist pre)) hids
      rw [huv, List.map_append, List.map_cons] at hnd
      obtain ⟨hndu, hndp, hdisj⟩ := List.nodup_append.mp hnd
      have hu : ∀ x ∈ u, x.id ≠ (pre.getD i default).id := by
        intro x hx he
        exact hdisj (List.mem_map_of_mem _ hx) (by simp [he])
      have hv : ∀ x ∈ v, x.id ≠ (pre.getD i default).id := by
        intro x hx he
        exact (List.nodup_cons.mp hndp).1 (he ▸ List.mem_map_of_mem (·.id) hx)
      rw [hpi, huv, batchUpd_pending results u v _ hu hv hcn]
  · rintro ⟨s, hs, hsel, hcn, e, he⟩
    exact batchFold_error_sets pre results (pre.filter (·.selected))
      { outline := pre, error := "" } hfind
      ⟨s, List.mem_filter.mpr ⟨hs, by simp [hsel]⟩, hcn, e, he⟩

/-- C8, witness. -/
theorem c8_witness :
    (handleGenerateAllContent
        [ { id := "s0", title := "A", description := "", wordCount := 500,
            selected := true, order := 0 }
        , { id := "s1", title := "B", description := "", wordCount := 600,
            selected := true, order := 1, content := some "kept text" } ]
        (fun i => if i = "s0" then .error "boom" else .ok "fresh")).outline.length = 2 :=
  (c8_amended
    [ { id := "s0", title := "A", description := "", wordCount := 500,
        selected := true, order := 0 }
    , { id := "s1", title := "B", description := "", wordCount := 600,
        selected := true, order := 1, content := some "kept text" } ]
    (fun i => if i = "s0" then .error "boom" else .ok "fresh") (by decide)).1

end ContentForge
